import Mathlib

/-!
Verification development for the curve transaction coordinator
(`src/editor/curves/ContourManager.ts` of the plasticity repository).

The embedding translates the TypeScript source into Lean definitions:

* `PointOnCurve`, `Joint`, `Joints`, `CurveInfo`, `Transaction` follow the
  classes/types declared in `ContourManager.ts` (promise-valued `fragments`
  are not part of any claim and are omitted; numeric curve parameters are
  modelled as `Int`).
* `ContourManager` methods (`addCurve`, `removeCurve`, `hide`, `unhide`,
  `makeVisible`, `addItem`, `replaceItem`, `removeItem`, `unhideAll`,
  `transaction`) are translated line by line as state-passing functions
  `CM → Except Err α × CM × List Ev`, where `Ev` records every call made to
  the downstream collaborators (the curve index and the region rebuilder)
  and to the underlying item database.
* The collaborators `PlanarCurveDatabase.{cascade, commit}` and the
  underlying database operations are not part of the sources under study;
  they are modelled from the spec (each such definition carries a
  `Modelled from the spec:` doc comment).
* JavaScript `Set` objects are modelled as duplicate-free lists with
  insertion-order preserving `setAdd`, matching `Set.prototype.add`.
-/

/-- Identifier type standing for `c3d.SimpleName` (an opaque integer handle). -/
abbrev SimpleName := Nat

/-- Identity of a `c3d.Placement3D` (a plane identity; curves on the same
plane share it, per the spec's plane-identity model). -/
abbrev PlacementId := Nat

/-- Translation of the `PointOnCurve` class of `ContourManager.ts`. -/
structure PointOnCurve where
  id : SimpleName
  t : Int
  tmin : Int
  tmax : Int
deriving DecidableEq, Repr

/-- Translation of the getter `PointOnCurve.isTmin`. -/
def PointOnCurve.isTmin (p : PointOnCurve) : Bool := p.t == p.tmin

/-- Translation of the getter `PointOnCurve.isTmax`. -/
def PointOnCurve.isTmax (p : PointOnCurve) : Bool := p.t == p.tmax

/-- Translation of the `Joint` class of `ContourManager.ts`. -/
structure Joint where
  on1 : PointOnCurve
  on2 : PointOnCurve
deriving DecidableEq, Repr

/-- Translation of the `Joints` class of `ContourManager.ts`. -/
structure Joints where
  start : Option Joint
  stop : Option Joint
deriving DecidableEq, Repr

/-- Translation of the `CurveInfo` class of `ContourManager.ts`
(the promise-valued `fragments` array is omitted; no claim concerns it). -/
structure CurveInfo where
  touched : List SimpleName
  joints : Joints
  planarCurve : SimpleName
  placement : PlacementId
deriving DecidableEq, Repr

/-- Translation of the `Transaction` type of `ContourManager.ts`
(field order as in the source: `{ dirty, added, deleted }`). -/
structure Transaction where
  dirty : List SimpleName
  added : List SimpleName
  deleted : List SimpleName
deriving DecidableEq, Repr

/-- Translation of the `State` type of `ContourManager.ts`:
`{ tag: 'none' } | { tag: 'transaction', transaction: Transaction }`. -/
inductive CMState where
  | none : CMState
  | transaction (t : Transaction) : CMState
deriving DecidableEq, Repr

/-- Error values: `InvalidState` is the `throw new Error("invalid state: " + tag)`
of `ContourManager.transaction`; `notFound` models the spec's `NotFound` signal
for a lookup of an unknown curve id; `userError` stands for an arbitrary
exception raised by a transaction body. -/
inductive Err where
  | invalidState (tag : String)
  | notFound (c : SimpleName)
  | userError (n : Nat)
deriving DecidableEq, Repr

/-- Closed variant type for database items, per the spec's design note:
`SpaceInstance` is the curve-typed kind the `instanceof visual.SpaceInstance`
checks of `ContourManager.ts` select. -/
inductive Item where
  | solid (n : SimpleName)
  | spaceInstance (n : SimpleName)
  | planeInstance (n : SimpleName)
deriving DecidableEq, Repr

/-- Translation of the `simpleName` getter on visual items. -/
def Item.simpleName : Item → SimpleName
  | .solid n => n
  | .spaceInstance n => n
  | .planeInstance n => n

/-- Test mirroring `item instanceof visual.SpaceInstance`. -/
def Item.isSpaceInstance : Item → Bool
  | .spaceInstance _ => true
  | _ => false

/-- Observable calls to the downstream collaborators: the planar curve
database (`curves.add`, `curves.remove`, `curves.commit`), the region
manager (`regions.updatePlacement`) and the underlying item database. -/
inductive Ev where
  | curvesAdd (c : SimpleName)
  | curvesRemove (c : SimpleName)
  | curvesCommit (t : Transaction)
  | updatePlacement (p : PlacementId)
  | dbHide (i : Item)
  | dbUnhide (i : Item)
  | dbMakeVisible (i : Item) (value : Bool)
  | dbAddItem (m : Nat)
  | dbReplaceItem (i : Item) (m : Nat)
  | dbRemoveItem (i : Item)
  | dbUnhideAll
deriving DecidableEq, Repr

/-- Insertion into a JavaScript `Set`, modelled on duplicate-free lists:
append the element if absent, preserving insertion order. -/
def setAdd {α : Type} [DecidableEq α] (s : List α) (a : α) : List α :=
  if a ∈ s then s else s ++ [a]

/-- The curve-record table owned by the planar curve database
(`curve2info`), modelled as an association list. -/
abbrev PCDB := List (SimpleName × CurveInfo)

/-- Lookup of a curve record; `none` models the spec's
`lookup(curveId) -> CurveRecord | NotFound` signature. -/
def dbLookup (db : PCDB) (c : SimpleName) : Option CurveInfo :=
  (db.find? (fun kv => kv.1 == c)).map (·.2)

/-- Insertion or replacement of a curve record. -/
def dbSet (db : PCDB) (c : SimpleName) (i : CurveInfo) : PCDB :=
  (c, i) :: db.filter (fun kv => kv.1 ≠ c)

/-- Removal of a curve record. -/
def dbRemove (db : PCDB) (c : SimpleName) : PCDB :=
  db.filter (fun kv => kv.1 ≠ c)

/-- The curve at the far end of a joint of curve `c`: the spec's
"identify the *other* curve referenced by the joint". -/
def Joint.otherEnd (c : SimpleName) (j : Joint) : SimpleName :=
  if j.on1.id = c then j.on2.id else j.on1.id

/-- The (up to two) joints of a record, start then stop. -/
def jointsList (j : Joints) : List Joint :=
  [j.start, j.stop].filterMap id

/-- Modelled from the spec: `PlanarCurveDatabase.cascade` is not among the
sources under study. Per the spec's cascade algorithm: add `c` to
`transaction.deleted`; for each joint of `c` (start and stop, if present)
take the other curve `c'` and, if `c'` is not already in `deleted`, add it
to `dirty`; one hop only, no recursion. `lookup` of an unknown curve id
signals `NotFound`. -/
def cascade (db : PCDB) (c : SimpleName) (t : Transaction) : Except Err Transaction :=
  match dbLookup db c with
  | .none => .error (.notFound c)
  | .some info =>
    let deleted := setAdd t.deleted c
    let others := (jointsList info.joints).map (Joint.otherEnd c)
    let dirty := others.foldl (fun d o => if o ∈ deleted then d else setAdd d o) t.dirty
    .ok { t with deleted := deleted, dirty := dirty }

/-- Environment of external behavior the coordinator cannot observe:
the record the curve index computes for a newly added curve, injectable
faults for `curves.commit` and `regions.updatePlacement`, and the results
of the underlying item-database operations (these operations are not among
the sources under study; the spec calls them pass-throughs). -/
structure Env where
  curveInfo : SimpleName → CurveInfo
  commitFault : Option Err
  rebuildFault : PlacementId → Option Err
  dbHideRes : Item → Nat
  dbUnhideRes : Item → Nat
  dbAddItemRes : Nat → Item
  dbReplaceRes : Item → Nat → Item
  dbUnhideAllRes : List Item

/-- Modelled from the spec: `PlanarCurveDatabase.commit` is not among the
sources under study. Per the spec it atomically applies `deleted` (removing
records), `added` (inserting freshly computed records) and `dirty`
(recomputing joints/fragments in place, abstracted here), with a curve in
both `deleted` and `dirty` resolved as deleted. -/
def dbCommit (env : Env) (db : PCDB) (t : Transaction) : PCDB :=
  let afterDeleted := t.deleted.foldl dbRemove db
  t.added.foldl (fun d c => dbSet d c (env.curveInfo c)) afterDeleted

/-- Coordinator instance: the `state` slot of `ContourManager`, the curve
index table it delegates to, and the environment. -/
structure CM where
  state : CMState
  curves : PCDB
  env : Env

namespace ContourManager

/-- Translation of `ContourManager.placementsAffectedByTransaction`:
for each curve in the set, look it up and, when the record is defined,
add its placement to the accumulating placement set (an unknown id is
skipped by the `if (info !== undefined)` guard). -/
def placementsAffectedByTransaction (db : PCDB) (dirty : List SimpleName)
    (placements : List PlacementId) : List PlacementId :=
  dirty.foldl (fun ps c =>
    match dbLookup db c with
    | .some info => setAdd ps info.placement
    | .none => ps) placements

/-- Translation of `ContourManager.addCurve`: when idle, register the curve
with the curve index, look its record up and trigger one region rebuild for
its placement; inside a transaction, record the id into `transaction.added`. -/
def addCurve (cm : CM) (c : SimpleName) : Except Err Unit × CM × List Ev :=
  match cm.state with
  | .none =>
    let db1 := dbSet cm.curves c (cm.env.curveInfo c)
    match dbLookup db1 c with
    | .some info =>
      (.ok (), { cm with curves := db1 }, [.curvesAdd c, .updatePlacement info.placement])
    | .none => (.error (.notFound c), { cm with curves := db1 }, [.curvesAdd c])
  | .transaction t =>
    (.ok (), { cm with state := .transaction { t with added := setAdd t.added c } }, [])

/-- Translation of `ContourManager.removeCurve`: when idle, look the record
up, remove the curve from the index and trigger one region rebuild for its
former placement (on an unknown id the removal call still happens before the
dereference of the missing record fails); inside a transaction, delegate to
the cascade over the active transaction. -/
def removeCurve (cm : CM) (c : SimpleName) : Except Err Unit × CM × List Ev :=
  match cm.state with
  | .none =>
    match dbLookup cm.curves c with
    | .some info =>
      (.ok (), { cm with curves := dbRemove cm.curves c },
        [.curvesRemove c, .updatePlacement info.placement])
    | .none =>
      (.error (.notFound c), { cm with curves := dbRemove cm.curves c }, [.curvesRemove c])
  | .transaction t =>
    match cascade cm.curves c t with
    | .ok t' => (.ok (), { cm with state := .transaction t' }, [])
    | .error e => (.error e, cm, [])

/-- Translation of `ContourManager.hide`: perform the underlying database
hide, then route curve-typed items through `removeCurve`, returning the
database result. -/
def hide (cm : CM) (i : Item) : Except Err Nat × CM × List Ev :=
  let result := cm.env.dbHideRes i
  match i with
  | .spaceInstance n =>
    let r := removeCurve cm n
    match r.1 with
    | .error e => (.error e, r.2.1, .dbHide i :: r.2.2)
    | .ok _ => (.ok result, r.2.1, .dbHide i :: r.2.2)
  | _ => (.ok result, cm, [.dbHide i])

/-- Translation of `ContourManager.unhide`: perform the underlying database
unhide, then route curve-typed items through `addCurve`, returning the
database result. -/
def unhide (cm : CM) (i : Item) : Except Err Nat × CM × List Ev :=
  let result := cm.env.dbUnhideRes i
  match i with
  | .spaceInstance n =>
    let r := addCurve cm n
    match r.1 with
    | .error e => (.error e, r.2.1, .dbUnhide i :: r.2.2)
    | .ok _ => (.ok result, r.2.1, .dbUnhide i :: r.2.2)
  | _ => (.ok result, cm, [.dbUnhide i])

/-- Translation of `ContourManager.makeVisible`: perform the underlying
database call, then route curve-typed items through `addCurve` when the flag
is true and `removeCurve` when it is false. -/
def makeVisible (cm : CM) (i : Item) (value : Bool) : Except Err Unit × CM × List Ev :=
  match i with
  | .spaceInstance n =>
    let r := if value then addCurve cm n else removeCurve cm n
    (r.1, r.2.1, .dbMakeVisible i value :: r.2.2)
  | _ => (.ok (), cm, [.dbMakeVisible i value])

/-- Translation of `ContourManager.addItem`: perform the underlying database
add, then route the result through `addCurve` when it is a `SpaceInstance`,
returning the created item. -/
def addItem (cm : CM) (m : Nat) : Except Err Item × CM × List Ev :=
  let result := cm.env.dbAddItemRes m
  match result with
  | .spaceInstance n =>
    let r := addCurve cm n
    match r.1 with
    | .error e => (.error e, r.2.1, .dbAddItem m :: r.2.2)
    | .ok _ => (.ok result, r.2.1, .dbAddItem m :: r.2.2)
  | _ => (.ok result, cm, [.dbAddItem m])

/-- Translation of `ContourManager.replaceItem`: perform the underlying
database replace; when the replaced item is a `SpaceInstance`, route it
through `removeCurve` and then route the new item through `addCurve`. -/
def replaceItem (cm : CM) (prev : Item) (m : Nat) : Except Err Item × CM × List Ev :=
  let result := cm.env.dbReplaceRes prev m
  match prev with
  | .spaceInstance n =>
    let r1 := removeCurve cm n
    match r1.1 with
    | .error e => (.error e, r1.2.1, .dbReplaceItem prev m :: r1.2.2)
    | .ok _ =>
      let r2 := addCurve r1.2.1 result.simpleName
      match r2.1 with
      | .error e => (.error e, r2.2.1, .dbReplaceItem prev m :: (r1.2.2 ++ r2.2.2))
      | .ok _ => (.ok result, r2.2.1, .dbReplaceItem prev m :: (r1.2.2 ++ r2.2.2))
  | _ => (.ok result, cm, [.dbReplaceItem prev m])

/-- Translation of `ContourManager.removeItem`: perform the underlying
database remove, then route curve-typed items through `removeCurve`. -/
def removeItem (cm : CM) (i : Item) : Except Err Unit × CM × List Ev :=
  match i with
  | .spaceInstance n =>
    let r := removeCurve cm n
    (r.1, r.2.1, .dbRemoveItem i :: r.2.2)
  | _ => (.ok (), cm, [.dbRemoveItem i])

/-- Loop of `ContourManager.unhideAll`: call `addCurve` once per unhidden
`SpaceInstance` (the `Promise.all` is sequentialized; a rejection propagates). -/
def goUnhide (cm : CM) : List Item → Except Err Unit × CM × List Ev
  | [] => (.ok (), cm, [])
  | .spaceInstance n :: rest =>
    let r := addCurve cm n
    match r.1 with
    | .error e => (.error e, r.2.1, r.2.2)
    | .ok _ =>
      let r2 := goUnhide r.2.1 rest
      (r2.1, r2.2.1, r.2.2 ++ r2.2.2)
  | _ :: rest => goUnhide cm rest

/-- Translation of `ContourManager.unhideAll`: perform the underlying
database unhide-all, call `addCurve` for every unhidden `SpaceInstance`
(no transaction is opened), and return the unhidden items. -/
def unhideAll (cm : CM) : Except Err (List Item) × CM × List Ev :=
  let unhidden := cm.env.dbUnhideAllRes
  let r := goUnhide cm unhidden
  match r.1 with
  | .error e => (.error e, r.2.1, .dbUnhideAll :: r.2.2)
  | .ok _ => (.ok unhidden, r.2.1, .dbUnhideAll :: r.2.2)

/-- Running the region rebuild loop `for (const p of placements) await
this.regions.updatePlacement(p)`; a configured rebuild fault makes the call
raise (the call itself is still recorded). -/
def runRebuilds (env : Env) : List PlacementId → Except Err Unit × List Ev
  | [] => (.ok (), [])
  | p :: rest =>
    match env.rebuildFault p with
    | .some e => (.error e, [.updatePlacement p])
    | .none =>
      let r := runRebuilds env rest
      (r.1, .updatePlacement p :: r.2)

/-- Commit phase of `ContourManager.transaction` (steps after the body
completes): on a body error the `finally` resets the state and the error
propagates with no commit; on success, compute the placements affected by
`dirty` and `deleted`, call `curves.commit`, compute the placements affected
by `added` against the committed table, run the region rebuilds when any of
the three sets is nonempty, and reset the state in the `finally` even when
the commit or a rebuild raises. -/
def finishTransaction (cm : CM) (r : Except Err Unit) : Except Err Unit × CM × List Ev :=
  match r with
  | .error e => (.error e, { cm with state := .none }, [])
  | .ok _ =>
    match cm.state with
    | .none => (.error (.invalidState "none"), cm, [])
    | .transaction t =>
      let ps1 := placementsAffectedByTransaction cm.curves t.dirty []
      let ps2 := placementsAffectedByTransaction cm.curves t.deleted ps1
      match cm.env.commitFault with
      | .some e => (.error e, { cm with state := .none }, [.curvesCommit t])
      | .none =>
        let db' := dbCommit cm.env cm.curves t
        let ps3 := placementsAffectedByTransaction db' t.added ps2
        let reb :=
          if t.dirty ≠ [] ∨ t.added ≠ [] ∨ t.deleted ≠ [] then runRebuilds cm.env ps3
          else (.ok (), [])
        (reb.1, { cm with curves := db', state := .none }, .curvesCommit t :: reb.2)

end ContourManager

/-- Deep embedding of a transaction body: the curve-affecting calls a body
may make, an arbitrary raised exception, a nested `transaction` call whose
error propagates (`transact`), and a nested `transaction` call whose error
the body catches before continuing (`tryTransact`). -/
inductive Body where
  | done
  | addCurve (c : SimpleName) (rest : Body)
  | removeCurve (c : SimpleName) (rest : Body)
  | raise (e : Err)
  | transact (inner : Body) (rest : Body)
  | tryTransact (inner : Body) (rest : Body)

namespace ContourManager

/-- Interpreter for a transaction body against a coordinator. The nested
`transaction` cases inline `ContourManager.transaction` (guard on the state
tag, fresh transaction, body, commit phase); `transaction_def` below proves
the inlining equal to the `transaction` function itself. -/
def runBody : Body → CM → Except Err Unit × CM × List Ev
  | .done, cm => (.ok (), cm, [])
  | .raise e, cm => (.error e, cm, [])
  | .addCurve c rest, cm =>
    let r := addCurve cm c
    match r.1 with
    | .error e => (.error e, r.2.1, r.2.2)
    | .ok _ =>
      let r2 := runBody rest r.2.1
      (r2.1, r2.2.1, r.2.2 ++ r2.2.2)
  | .removeCurve c rest, cm =>
    let r := removeCurve cm c
    match r.1 with
    | .error e => (.error e, r.2.1, r.2.2)
    | .ok _ =>
      let r2 := runBody rest r.2.1
      (r2.1, r2.2.1, r.2.2 ++ r2.2.2)
  | .transact inner rest, cm =>
    match cm.state with
    | .transaction _ => (.error (.invalidState "transaction"), cm, [])
    | .none =>
      let res := runBody inner { cm with state := .transaction ⟨[], [], []⟩ }
      let fin := finishTransaction res.2.1 res.1
      match fin.1 with
      | .error e => (.error e, fin.2.1, res.2.2 ++ fin.2.2)
      | .ok _ =>
        let r2 := runBody rest fin.2.1
        (r2.1, r2.2.1, (res.2.2 ++ fin.2.2) ++ r2.2.2)
  | .tryTransact inner rest, cm =>
    match cm.state with
    | .transaction _ =>
      runBody rest cm
    | .none =>
      let res := runBody inner { cm with state := .transaction ⟨[], [], []⟩ }
      let fin := finishTransaction res.2.1 res.1
      let r2 := runBody rest fin.2.1
      (r2.1, r2.2.1, (res.2.2 ++ fin.2.2) ++ r2.2.2)

/-- Translation of `ContourManager.transaction`: when idle, install a fresh
empty transaction, run the body, then perform the commit phase (with the
`finally` reset folded into `finishTransaction`); when a transaction is
already active, throw `invalid state: transaction` without touching it. -/
def transaction (cm : CM) (body : Body) : Except Err Unit × CM × List Ev :=
  match cm.state with
  | .transaction _ => (.error (.invalidState "transaction"), cm, [])
  | .none =>
    let res := runBody body { cm with state := .transaction ⟨[], [], []⟩ }
    let fin := finishTransaction res.2.1 res.1
    (fin.1, fin.2.1, res.2.2 ++ fin.2.2)

end ContourManager

/-! Helper lemmas about the set model and the coordinator. -/

theorem mem_setAdd {α : Type} [DecidableEq α] {s : List α} {a x : α} :
    x ∈ setAdd s a ↔ x ∈ s ∨ x = a := by
  unfold setAdd
  split
  · constructor
    · exact fun h => Or.inl h
    · rintro (h | rfl) <;> assumption
  · simp [List.mem_append]

theorem setAdd_nodup {α : Type} [DecidableEq α] {s : List α} (a : α)
    (h : s.Nodup) : (setAdd s a).Nodup := by
  unfold setAdd
  split
  · exact h
  · exact List.Nodup.append h (List.nodup_singleton a) (by
      intro x hx hxa
      simp only [List.mem_singleton] at hxa
      subst hxa
      exact absurd hx (by assumption))

theorem dbLookup_dbSet_self (db : PCDB) (c : SimpleName) (i : CurveInfo) :
    dbLookup (dbSet db c i) c = some i := by
  simp [dbLookup, dbSet, List.find?]

/-- Structure eta for a coordinator known to be idle. -/
theorem CM.eta_none (cm : CM) (h : cm.state = .none) :
    { cm with state := CMState.none } = cm := by
  cases cm
  simp_all

/-- Structure eta for a coordinator known to be in a transaction. -/
theorem CM.eta_transaction (cm : CM) (t : Transaction) (h : cm.state = .transaction t) :
    { cm with state := CMState.transaction t } = cm := by
  cases cm
  simp_all

namespace ContourManager

/-- Key invariant: a body running inside an active transaction emits no
downstream calls and only updates the accumulated transaction — the curve
table and environment are untouched and the state stays in a transaction. -/
theorem runBody_in_transaction (b : Body) :
    ∀ (cm : CM) (t : Transaction), cm.state = .transaction t →
      ∃ (r : Except Err Unit) (t' : Transaction),
        runBody b cm = (r, { cm with state := .transaction t' }, []) := by
  induction b with
  | done =>
    intro cm t h
    exact ⟨.ok (), t, by rw [runBody, CM.eta_transaction cm t h]⟩
  | raise e =>
    intro cm t h
    exact ⟨.error e, t, by rw [runBody, CM.eta_transaction cm t h]⟩
  | addCurve c rest ih =>
    intro cm t h
    rw [runBody, addCurve, h]
    obtain ⟨r, t', hr⟩ := ih { cm with state := .transaction { t with added := setAdd t.added c } }
      { t with added := setAdd t.added c } rfl
    refine ⟨r, t', ?_⟩
    simp only [hr, List.nil_append]
  | removeCurve c rest ih =>
    intro cm t h
    rw [runBody, removeCurve, h]
    cases hc : cascade cm.curves c t with
    | error e =>
      exact ⟨.error e, t, by simp only [hc, CM.eta_transaction cm t h]⟩
    | ok t2 =>
      obtain ⟨r, t', hr⟩ := ih { cm with state := .transaction t2 } t2 rfl
      refine ⟨r, t', ?_⟩
      simp only [hc, hr, List.nil_append]
  | transact inner rest ih1 ih2 =>
    intro cm t h
    rw [runBody, h]
    exact ⟨.error (.invalidState "transaction"), t, by rw [CM.eta_transaction cm t h]⟩
  | tryTransact inner rest ih1 ih2 =>
    intro cm t h
    rw [runBody, h]
    exact ih2 cm t h

/-- The inlined nested-transaction case of `runBody` agrees with
`transaction` itself. -/
theorem runBody_transact (inner rest : Body) (cm : CM) :
    runBody (.transact inner rest) cm =
      (let res := transaction cm inner
       match res.1 with
       | .error e => (.error e, res.2.1, res.2.2)
       | .ok _ =>
         let r2 := runBody rest res.2.1
         (r2.1, r2.2.1, res.2.2 ++ r2.2.2)) := by
  rw [runBody, transaction]
  cases h : cm.state with
  | transaction t => rfl
  | none => rfl

/-- The inlined caught-nested-transaction case of `runBody` agrees with
running `transaction` and discarding its result. -/
theorem runBody_tryTransact (inner rest : Body) (cm : CM) :
    runBody (.tryTransact inner rest) cm =
      (let res := transaction cm inner
       let r2 := runBody rest res.2.1
       (r2.1, r2.2.1, res.2.2 ++ r2.2.2)) := by
  rw [runBody, transaction]
  cases h : cm.state with
  | transaction t => rfl
  | none => rfl

theorem placementsAffected_nodup (db : PCDB) (l : List SimpleName) :
    ∀ acc : List PlacementId, acc.Nodup →
      (placementsAffectedByTransaction db l acc).Nodup := by
  induction l with
  | nil => intro acc h; exact h
  | cons c rest ih =>
    intro acc h
    rw [placementsAffectedByTransaction] at *
    simp only [List.foldl_cons]
    cases hl : dbLookup db c with
    | none => exact ih acc h
    | some info => exact ih _ (setAdd_nodup _ h)

theorem runRebuilds_ok_events (env : Env) (ps : List PlacementId)
    (h : (runRebuilds env ps).1 = .ok ()) :
    (runRebuilds env ps).2 = ps.map Ev.updatePlacement := by
  induction ps with
  | nil => rfl
  | cons p rest ih =>
    rw [runRebuilds] at h ⊢
    cases hf : env.rebuildFault p with
    | some e => simp [hf] at h
    | none =>
      simp only [hf] at h ⊢
      have h' : (runRebuilds env rest).1 = .ok () := h
      show Ev.updatePlacement p :: (runRebuilds env rest).2 = _
      rw [List.map_cons, ih h']

end ContourManager

namespace ContourManager

/-- Shape of a transaction run from an idle coordinator: the body emits no
events and only accumulates a transaction; the overall result is the commit
phase applied to the accumulated transaction. -/
theorem transaction_shape (cm : CM) (body : Body) (h : cm.state = CMState.none) :
    ∃ (r : Except Err Unit) (t' : Transaction),
      runBody body { cm with state := .transaction ⟨[], [], []⟩ } =
        (r, { cm with state := .transaction t' }, []) ∧
      transaction cm body =
        ((finishTransaction { cm with state := .transaction t' } r).1,
         (finishTransaction { cm with state := .transaction t' } r).2.1,
         (finishTransaction { cm with state := .transaction t' } r).2.2) := by
  obtain ⟨r, t', hrb⟩ :=
    runBody_in_transaction body { cm with state := .transaction ⟨[], [], []⟩ } ⟨[], [], []⟩ rfl
  refine ⟨r, t', hrb, ?_⟩
  obtain ⟨st, curves, env⟩ := cm
  simp only at h
  subst h
  rw [transaction]
  simp only [hrb, List.nil_append]

end ContourManager

/-- Concrete environment used by the witness theorems: fault-free, with a
jointless record on placement 0 for every added curve. -/
def envW : Env :=
  { curveInfo := fun n => { touched := [], joints := ⟨none, none⟩, planarCurve := n, placement := 0 },
    commitFault := none,
    rebuildFault := fun _ => none,
    dbHideRes := fun _ => 0,
    dbUnhideRes := fun _ => 0,
    dbAddItemRes := fun _ => Item.solid 0,
    dbReplaceRes := fun _ _ => Item.solid 0,
    dbUnhideAllRes := [] }

/-- Concrete idle coordinator with an empty curve table. -/
def cmW : CM := { state := .none, curves := [], env := envW }

/-- C2: for every body, if the body raises inside `transaction`, then
`curves.commit` is never called, no `regions.updatePlacement` call happens,
the accumulated transaction is discarded, the error propagates and the
coordinator is exactly its idle starting value again (first conjunct: the
result is the error with no events and an unchanged coordinator); and the
state is back to `none` on every path, including when `curves.commit` or a
region rebuild raises after the body succeeds (second conjunct). -/
theorem transaction_failure_semantics (cm : CM) (body : Body) (h : cm.state = CMState.none) :
    (∀ e : Err,
      (ContourManager.runBody body { cm with state := .transaction ⟨[], [], []⟩ }).1 = .error e →
      ContourManager.transaction cm body = (.error e, cm, [])) ∧
    (ContourManager.transaction cm body).2.1.state = CMState.none := by
  obtain ⟨r, t', hrb, htr⟩ := ContourManager.transaction_shape cm body h
  constructor
  · intro e he
    rw [hrb] at he
    simp only at he
    subst he
    rw [htr, ContourManager.finishTransaction]
    simp only [CM.eta_none cm h]
  · rw [htr]
    cases r with
    | error e => rw [ContourManager.finishTransaction]
    | ok u =>
      rw [ContourManager.finishTransaction]
      simp only
      cases cm.env.commitFault with
      | some e => rfl
      | none => rfl

/-- Witness for C2 at a concrete coordinator and body. -/
theorem transaction_failure_semantics_witness :
    cmW.state = CMState.none ∧
    ((∀ e : Err,
      (ContourManager.runBody (Body.raise (.userError 7))
        { cmW with state := .transaction ⟨[], [], []⟩ }).1 = .error e →
      ContourManager.transaction cmW (Body.raise (.userError 7)) = (.error e, cmW, [])) ∧
     (ContourManager.transaction cmW (Body.raise (.userError 7))).2.1.state = CMState.none) :=
  ⟨rfl, transaction_failure_semantics cmW (Body.raise (.userError 7)) rfl⟩

/-- C3: for every transaction whose run succeeds, the downstream trace is
exactly one `curves.commit` call followed by the region rebuilds, so every
rebuild happens after the structural commit, and the rebuilt placements are
pairwise distinct — at most one `regions.updatePlacement` call per affected
plane. -/
theorem single_rebuild_per_plane (cm : CM) (body : Body)
    (h : (ContourManager.transaction cm body).1 = .ok ()) :
    ∃ (t : Transaction) (ps : List PlacementId),
      (ContourManager.transaction cm body).2.2 =
        Ev.curvesCommit t :: ps.map Ev.updatePlacement ∧
      ps.Nodup := by
  cases hst : cm.state with
  | transaction t0 =>
    rw [ContourManager.transaction, hst] at h
    exact absurd h (by simp)
  | none =>
    obtain ⟨r, t', hrb, htr⟩ := ContourManager.transaction_shape cm body hst
    rw [htr] at h ⊢
    cases r with
    | error e =>
      rw [ContourManager.finishTransaction] at h
      exact absurd h (by simp)
    | ok u =>
      rw [ContourManager.finishTransaction] at h ⊢
      simp only at h ⊢
      cases hcf : cm.env.commitFault with
      | some e => rw [hcf] at h; simp at h
      | none =>
        rw [hcf] at h
        simp only at h ⊢
        by_cases hcond : t'.dirty ≠ [] ∨ t'.added ≠ [] ∨ t'.deleted ≠ []
        · rw [if_pos hcond] at h ⊢
          refine ⟨t',
            ContourManager.placementsAffectedByTransaction (dbCommit cm.env cm.curves t') t'.added
              (ContourManager.placementsAffectedByTransaction cm.curves t'.deleted
                (ContourManager.placementsAffectedByTransaction cm.curves t'.dirty [])), ?_, ?_⟩
          · rw [ContourManager.runRebuilds_ok_events _ _ h]
          · exact ContourManager.placementsAffected_nodup _ _ _
              (ContourManager.placementsAffected_nodup _ _ _
                (ContourManager.placementsAffected_nodup _ _ _ List.nodup_nil))
        · rw [if_neg hcond] at h ⊢
          exact ⟨t', [], rfl, List.nodup_nil⟩

/-- Body adding five curves, all of which `envW` puts on placement 0. -/
def body5 : Body :=
  .addCurve 1 (.addCurve 2 (.addCurve 3 (.addCurve 4 (.addCurve 5 .done))))

/-- Witness for C3: a transaction adding 5 curves on one plane succeeds and
its trace is the commit followed by exactly one rebuild for that plane. -/
theorem single_rebuild_per_plane_witness :
    (ContourManager.transaction cmW body5).1 = .ok () ∧
    ∃ (t : Transaction) (ps : List PlacementId),
      (ContourManager.transaction cmW body5).2.2 =
        Ev.curvesCommit t :: ps.map Ev.updatePlacement ∧
      ps.Nodup :=
  ⟨rfl, single_rebuild_per_plane cmW body5 rfl⟩

/-- C4: calling `transaction` from within an active transaction's body
signals `InvalidState` and leaves the coordinator — in particular the outer
transaction's accumulated sets — untouched; hence a body that catches the
inner error behaves exactly like that body without the nested call, the
outer transaction completing normally, while an uncaught inner error aborts
the outer body at that point with the coordinator untouched. -/
theorem reentrancy_guard (cm : CM) (t : Transaction) (inner rest : Body)
    (h : cm.state = CMState.transaction t) :
    ContourManager.transaction cm inner = (.error (.invalidState "transaction"), cm, []) ∧
    ContourManager.runBody (.tryTransact inner rest) cm = ContourManager.runBody rest cm ∧
    ContourManager.runBody (.transact inner rest) cm =
      (.error (.invalidState "transaction"), cm, []) := by
  refine ⟨?_, ?_, ?_⟩
  · rw [ContourManager.transaction, h]
  · rw [ContourManager.runBody, h]
  · rw [ContourManager.runBody, h]

/-- Witness for C4 at a concrete in-transaction coordinator. -/
theorem reentrancy_guard_witness :
    ({ state := .transaction ⟨[], [9], []⟩, curves := [], env := envW } : CM).state =
      CMState.transaction ⟨[], [9], []⟩ ∧
    (ContourManager.transaction { state := .transaction ⟨[], [9], []⟩, curves := [], env := envW }
        Body.done =
      (.error (.invalidState "transaction"),
       { state := .transaction ⟨[], [9], []⟩, curves := [], env := envW }, []) ∧
     ContourManager.runBody (.tryTransact Body.done (.addCurve 3 .done))
        { state := .transaction ⟨[], [9], []⟩, curves := [], env := envW } =
      ContourManager.runBody (.addCurve 3 .done)
        { state := .transaction ⟨[], [9], []⟩, curves := [], env := envW } ∧
     ContourManager.runBody (.transact Body.done (.addCurve 3 .done))
        { state := .transaction ⟨[], [9], []⟩, curves := [], env := envW } =
      (.error (.invalidState "transaction"),
       { state := .transaction ⟨[], [9], []⟩, curves := [], env := envW }, [])) :=
  ⟨rfl, reentrancy_guard _ ⟨[], [9], []⟩ Body.done (.addCurve 3 .done) rfl⟩

namespace ContourManager

/-- The trace of a transaction whose body succeeded starts with the
`curves.commit` call carrying the accumulated transaction, on faulty and
fault-free environments alike. -/
theorem finish_ok_head (cm : CM) (t : Transaction) (h : cm.state = .transaction t) :
    (finishTransaction cm (.ok ())).2.2.head? = some (.curvesCommit t) := by
  rw [finishTransaction]
  simp only [h]
  cases hcf : cm.env.commitFault with
  | some e => rfl
  | none => rfl

end ContourManager

/-- Curve table for the cascade-completeness configuration: three curves on
one placement, `A` jointed to `B` (via `j1`/`j2`) and `B` jointed to `C`
(via `j3`/`j4`), no other joints. -/
def c1db (A B C : SimpleName) (p : PlacementId) (j1 j2 j3 j4 : Joint) : PCDB :=
  [(A, { touched := [], joints := ⟨some j1, none⟩, planarCurve := A, placement := p }),
   (B, { touched := [], joints := ⟨some j2, some j3⟩, planarCurve := B, placement := p }),
   (C, { touched := [], joints := ⟨some j4, none⟩, planarCurve := C, placement := p })]

/-- C1: in every configuration with curves `A`–`B` jointed and `B`–`C`
jointed on the same plane, a transaction whose body removes `B` and `C`
commits with `A` dirty but not deleted; and a transaction whose body removes
`A`, `B` and `C` commits with every dirty curve also deleted (the resolved
dirty set is empty, deletion taking precedence). -/
theorem cascade_completeness (A B C : SimpleName) (p : PlacementId) (env : Env)
    (j1 j2 j3 j4 : Joint)
    (hAB : A ≠ B) (hAC : A ≠ C) (hBC : B ≠ C)
    (h1 : Joint.otherEnd A j1 = B) (h2 : Joint.otherEnd B j2 = A)
    (h3 : Joint.otherEnd B j3 = C) (h4 : Joint.otherEnd C j4 = B) :
    (∃ t1 : Transaction,
      (ContourManager.transaction ⟨.none, c1db A B C p j1 j2 j3 j4, env⟩
        (.removeCurve B (.removeCurve C .done))).2.2.head? =
          some (.curvesCommit t1) ∧
      A ∈ t1.dirty ∧ A ∉ t1.deleted) ∧
    (∃ t2 : Transaction,
      (ContourManager.transaction ⟨.none, c1db A B C p j1 j2 j3 j4, env⟩
        (.removeCurve A (.removeCurve B (.removeCurve C .done)))).2.2.head? =
          some (.curvesCommit t2) ∧
      ∀ x ∈ t2.dirty, x ∈ t2.deleted) := by
  have hBA : B ≠ A := hAB.symm
  have hCA : C ≠ A := hAC.symm
  have hCB : C ≠ B := hBC.symm
  have hABf : (A == B) = false := by simp [hAB]
  have hACf : (A == C) = false := by simp [hAC]
  have hBCf : (B == C) = false := by simp [hBC]
  have lkA : dbLookup (c1db A B C p j1 j2 j3 j4) A =
      some { touched := [], joints := ⟨some j1, none⟩, planarCurve := A, placement := p } := by
    simp [dbLookup, c1db, List.find?]
  have lkB : dbLookup (c1db A B C p j1 j2 j3 j4) B =
      some { touched := [], joints := ⟨some j2, some j3⟩, planarCurve := B, placement := p } := by
    simp [dbLookup, c1db, List.find?, hABf]
  have lkC : dbLookup (c1db A B C p j1 j2 j3 j4) C =
      some { touched := [], joints := ⟨some j4, none⟩, planarCurve := C, placement := p } := by
    simp [dbLookup, c1db, List.find?, hACf, hBCf]
  have e1 : cascade (c1db A B C p j1 j2 j3 j4) B ⟨[], [], []⟩ = .ok ⟨[A, C], [], [B]⟩ := by
    rw [cascade, lkB]
    simp [jointsList, h2, h3, setAdd, hAB, hAC, hBC, hBA, hCA, hCB]
  have e2 : cascade (c1db A B C p j1 j2 j3 j4) C ⟨[A, C], [], [B]⟩ =
      .ok ⟨[A, C], [], [B, C]⟩ := by
    rw [cascade, lkC]
    simp [jointsList, h4, setAdd, hAB, hAC, hBC, hBA, hCA, hCB]
  have e3 : cascade (c1db A B C p j1 j2 j3 j4) A ⟨[], [], []⟩ = .ok ⟨[B], [], [A]⟩ := by
    rw [cascade, lkA]
    simp [jointsList, h1, setAdd, hAB, hAC, hBC, hBA, hCA, hCB]
  have e4 : cascade (c1db A B C p j1 j2 j3 j4) B ⟨[B], [], [A]⟩ =
      .ok ⟨[B, C], [], [A, B]⟩ := by
    rw [cascade, lkB]
    simp [jointsList, h2, h3, setAdd, hAB, hAC, hBC, hBA, hCA, hCB]
  have e5 : cascade (c1db A B C p j1 j2 j3 j4) C ⟨[B, C], [], [A, B]⟩ =
      .ok ⟨[B, C], [], [A, B, C]⟩ := by
    rw [cascade, lkC]
    simp [jointsList, h4, setAdd, hAB, hAC, hBC, hBA, hCA, hCB]
  constructor
  · refine ⟨⟨[A, C], [], [B, C]⟩, ?_, ?_, ?_⟩
    · rw [ContourManager.transaction]
      simp only [ContourManager.runBody, ContourManager.removeCurve, e1, e2]
      exact ContourManager.finish_ok_head _ _ rfl
    · simp
    · simp [hAB, hAC]
  · refine ⟨⟨[B, C], [], [A, B, C]⟩, ?_, ?_⟩
    · rw [ContourManager.transaction]
      simp only [ContourManager.runBody, ContourManager.removeCurve, e3, e4, e5]
      exact ContourManager.finish_ok_head _ _ rfl
    · intro x hx
      simp only [List.mem_cons, List.not_mem_nil, or_false] at hx
      rcases hx with rfl | rfl <;> simp

/-- Joint of curve 1 touching curve 2, for the C1 witness. -/
def j1W : Joint := ⟨⟨1, 0, 0, 1⟩, ⟨2, 0, 0, 1⟩⟩

/-- Joint of curve 2 touching curve 1, for the C1 witness. -/
def j2W : Joint := ⟨⟨2, 0, 0, 1⟩, ⟨1, 0, 0, 1⟩⟩

/-- Joint of curve 2 touching curve 3, for the C1 witness. -/
def j3W : Joint := ⟨⟨2, 1, 0, 1⟩, ⟨3, 0, 0, 1⟩⟩

/-- Joint of curve 3 touching curve 2, for the C1 witness. -/
def j4W : Joint := ⟨⟨3, 0, 0, 1⟩, ⟨2, 1, 0, 1⟩⟩

/-- Witness for C1 at the concrete configuration 1–2 jointed, 2–3 jointed. -/
theorem cascade_completeness_witness :
    (1 : SimpleName) ≠ 2 ∧ Joint.otherEnd 2 j2W = 1 ∧
    ((∃ t1 : Transaction,
      (ContourManager.transaction ⟨.none, c1db 1 2 3 0 j1W j2W j3W j4W, envW⟩
        (.removeCurve 2 (.removeCurve 3 .done))).2.2.head? =
          some (.curvesCommit t1) ∧
      1 ∈ t1.dirty ∧ 1 ∉ t1.deleted) ∧
    (∃ t2 : Transaction,
      (ContourManager.transaction ⟨.none, c1db 1 2 3 0 j1W j2W j3W j4W, envW⟩
        (.removeCurve 1 (.removeCurve 2 (.removeCurve 3 .done)))).2.2.head? =
          some (.curvesCommit t2) ∧
      ∀ x ∈ t2.dirty, x ∈ t2.deleted)) :=
  ⟨by decide, by decide,
    cascade_completeness 1 2 3 0 envW j1W j2W j3W j4W
      (by decide) (by decide) (by decide)
      (by decide) (by decide) (by decide) (by decide)⟩

/-- C5: dispatch of `addCurve` and `removeCurve` on the coordinator state.
Idle: `addCurve` registers the curve with the index and triggers exactly one
region rebuild for the curve's placement; `removeCurve` looks the record up,
removes the curve from the index and triggers one rebuild for its former
placement. In a transaction: `addCurve` only inserts the id into
`transaction.added` with no downstream call; `removeCurve` only delegates to
the cascade over the active transaction. -/
theorem state_dispatch_add_remove (cm : CM) (c : SimpleName) :
    (cm.state = CMState.none →
      ContourManager.addCurve cm c =
        (.ok (), { cm with curves := dbSet cm.curves c (cm.env.curveInfo c) },
         [.curvesAdd c, .updatePlacement (cm.env.curveInfo c).placement])) ∧
    (∀ info : CurveInfo, cm.state = CMState.none → dbLookup cm.curves c = some info →
      ContourManager.removeCurve cm c =
        (.ok (), { cm with curves := dbRemove cm.curves c },
         [.curvesRemove c, .updatePlacement info.placement])) ∧
    (∀ t : Transaction, cm.state = CMState.transaction t →
      ContourManager.addCurve cm c =
        (.ok (), { cm with state := .transaction { t with added := setAdd t.added c } }, [])) ∧
    (∀ t : Transaction, cm.state = CMState.transaction t →
      ContourManager.removeCurve cm c =
        (match cascade cm.curves c t with
         | .ok t' => (.ok (), { cm with state := .transaction t' }, [])
         | .error e => (.error e, cm, []))) := by
  refine ⟨?_, ?_, ?_, ?_⟩
  · intro h
    rw [ContourManager.addCurve, h]
    simp only [dbLookup_dbSet_self]
  · intro info h hlk
    rw [ContourManager.removeCurve, h]
    simp only [hlk]
  · intro t h
    rw [ContourManager.addCurve, h]
  · intro t h
    rw [ContourManager.removeCurve, h]

/-- Witness for C5: the idle `addCurve` branch at a concrete coordinator. -/
theorem state_dispatch_add_remove_witness :
    cmW.state = CMState.none ∧
    ContourManager.addCurve cmW 5 =
      (.ok (), { cmW with curves := dbSet cmW.curves 5 (cmW.env.curveInfo 5) },
       [.curvesAdd 5, .updatePlacement (cmW.env.curveInfo 5).placement]) :=
  ⟨rfl, (state_dispatch_add_remove cmW 5).1 rfl⟩

/-- C6: every item-level operation performs the underlying database
operation (recorded first in the trace) and returns its result, and
additionally routes curve-typed items (`SpaceInstance`) through
`addCurve`/`removeCurve`: `hide` and `removeItem` through `removeCurve`,
`unhide` through `addCurve`, `addItem` through `addCurve` on a curve-typed
result, `makeVisible` through `addCurve` or `removeCurve` according to the
flag, and `replaceItem` through `removeCurve` on the old item followed by
`addCurve` on the new one. -/
theorem curve_typed_routing (cm : CM) (n : SimpleName) (m : Nat) :
    (ContourManager.hide cm (Item.spaceInstance n) =
      ((ContourManager.removeCurve cm n).1.map
          (fun _ => cm.env.dbHideRes (Item.spaceInstance n)),
       (ContourManager.removeCurve cm n).2.1,
       Ev.dbHide (Item.spaceInstance n) :: (ContourManager.removeCurve cm n).2.2)) ∧
    (ContourManager.unhide cm (Item.spaceInstance n) =
      ((ContourManager.addCurve cm n).1.map
          (fun _ => cm.env.dbUnhideRes (Item.spaceInstance n)),
       (ContourManager.addCurve cm n).2.1,
       Ev.dbUnhide (Item.spaceInstance n) :: (ContourManager.addCurve cm n).2.2)) ∧
    (ContourManager.makeVisible cm (Item.spaceInstance n) true =
      ((ContourManager.addCurve cm n).1,
       (ContourManager.addCurve cm n).2.1,
       Ev.dbMakeVisible (Item.spaceInstance n) true :: (ContourManager.addCurve cm n).2.2)) ∧
    (ContourManager.makeVisible cm (Item.spaceInstance n) false =
      ((ContourManager.removeCurve cm n).1,
       (ContourManager.removeCurve cm n).2.1,
       Ev.dbMakeVisible (Item.spaceInstance n) false :: (ContourManager.removeCurve cm n).2.2)) ∧
    (cm.env.dbAddItemRes m = Item.spaceInstance n →
      ContourManager.addItem cm m =
        ((ContourManager.addCurve cm n).1.map (fun _ => Item.spaceInstance n),
         (ContourManager.addCurve cm n).2.1,
         Ev.dbAddItem m :: (ContourManager.addCurve cm n).2.2)) ∧
    (ContourManager.replaceItem cm (Item.spaceInstance n) m =
      (match (ContourManager.removeCurve cm n).1 with
       | .error e =>
         (.error e, (ContourManager.removeCurve cm n).2.1,
          Ev.dbReplaceItem (Item.spaceInstance n) m :: (ContourManager.removeCurve cm n).2.2)
       | .ok _ =>
         ((ContourManager.addCurve (ContourManager.removeCurve cm n).2.1
             (cm.env.dbReplaceRes (Item.spaceInstance n) m).simpleName).1.map
            (fun _ => cm.env.dbReplaceRes (Item.spaceInstance n) m),
          (ContourManager.addCurve (ContourManager.removeCurve cm n).2.1
             (cm.env.dbReplaceRes (Item.spaceInstance n) m).simpleName).2.1,
          Ev.dbReplaceItem (Item.spaceInstance n) m ::
            ((ContourManager.removeCurve cm n).2.2 ++
             (ContourManager.addCurve (ContourManager.removeCurve cm n).2.1
                (cm.env.dbReplaceRes (Item.spaceInstance n) m).simpleName).2.2)))) ∧
    (ContourManager.removeItem cm (Item.spaceInstance n) =
      ((ContourManager.removeCurve cm n).1,
       (ContourManager.removeCurve cm n).2.1,
       Ev.dbRemoveItem (Item.spaceInstance n) :: (ContourManager.removeCurve cm n).2.2)) := by
  refine ⟨?_, ?_, ?_, ?_, ?_, ?_, ?_⟩
  · cases hr : (ContourManager.removeCurve cm n).1 <;>
      simp [ContourManager.hide, hr, Except.map]
  · cases hr : (ContourManager.addCurve cm n).1 <;>
      simp [ContourManager.unhide, hr, Except.map]
  · rfl
  · rfl
  · intro h
    rw [ContourManager.addItem, h]
    cases hr : (ContourManager.addCurve cm n).1 <;> simp [hr, Except.map]
  · rw [ContourManager.replaceItem]
    cases hr : (ContourManager.removeCurve cm n).1 with
    | error e => simp [hr]
    | ok u =>
      simp only [hr]
      cases hr2 : (ContourManager.addCurve (ContourManager.removeCurve cm n).2.1
          (cm.env.dbReplaceRes (Item.spaceInstance n) m).simpleName).1 <;>
        simp [hr2, Except.map]
  · rfl

/-- Witness for C6: the `addItem` conjunct (the only one with a hypothesis)
at a concrete environment whose created item is curve-typed. -/
def envW2 : Env := { envW with dbAddItemRes := fun _ => Item.spaceInstance 4 }

/-- Witness for C6 at a concrete coordinator. -/
theorem curve_typed_routing_witness :
    ({ state := .none, curves := [], env := envW2 } : CM).env.dbAddItemRes 9 =
      Item.spaceInstance 4 ∧
    ContourManager.addItem { state := .none, curves := [], env := envW2 } 9 =
      ((ContourManager.addCurve { state := .none, curves := [], env := envW2 } 4).1.map
          (fun _ => Item.spaceInstance 4),
       (ContourManager.addCurve { state := .none, curves := [], env := envW2 } 4).2.1,
       Ev.dbAddItem 9 ::
         (ContourManager.addCurve { state := .none, curves := [], env := envW2 } 4).2.2) :=
  ⟨rfl, (curve_typed_routing { state := .none, curves := [], env := envW2 } 4 9).2.2.2.2.1 rfl⟩

/-- C9: for every item that is not a `SpaceInstance`, each item-level
operation performs only the underlying database operation and returns its
result — the coordinator (state, accumulated transaction, curve table) is
unchanged and the trace holds only the database call: no `addCurve` or
`removeCurve` routing and no region rebuild. -/
theorem non_curve_frame (cm : CM) (i : Item) (m : Nat) (v : Bool)
    (h : i.isSpaceInstance = false) :
    ContourManager.hide cm i = (.ok (cm.env.dbHideRes i), cm, [.dbHide i]) ∧
    ContourManager.unhide cm i = (.ok (cm.env.dbUnhideRes i), cm, [.dbUnhide i]) ∧
    ContourManager.makeVisible cm i v = (.ok (), cm, [.dbMakeVisible i v]) ∧
    ((cm.env.dbAddItemRes m).isSpaceInstance = false →
      ContourManager.addItem cm m = (.ok (cm.env.dbAddItemRes m), cm, [.dbAddItem m])) ∧
    ContourManager.replaceItem cm i m =
      (.ok (cm.env.dbReplaceRes i m), cm, [.dbReplaceItem i m]) ∧
    ContourManager.removeItem cm i = (.ok (), cm, [.dbRemoveItem i]) := by
  have haddItem : (cm.env.dbAddItemRes m).isSpaceInstance = false →
      ContourManager.addItem cm m = (.ok (cm.env.dbAddItemRes m), cm, [.dbAddItem m]) := by
    intro h2
    rw [ContourManager.addItem]
    cases hres : cm.env.dbAddItemRes m with
    | spaceInstance k => rw [hres] at h2; simp [Item.isSpaceInstance] at h2
    | solid k => rfl
    | planeInstance k => rfl
  cases i with
  | spaceInstance n => simp [Item.isSpaceInstance] at h
  | solid n => exact ⟨rfl, rfl, rfl, haddItem, rfl, rfl⟩
  | planeInstance n => exact ⟨rfl, rfl, rfl, haddItem, rfl, rfl⟩

/-- Witness for C9 at a concrete solid item and coordinator. -/
theorem non_curve_frame_witness :
    (Item.solid 2).isSpaceInstance = false ∧
    (ContourManager.hide cmW (.solid 2) =
        (.ok (cmW.env.dbHideRes (.solid 2)), cmW, [.dbHide (.solid 2)]) ∧
     ContourManager.unhide cmW (.solid 2) =
        (.ok (cmW.env.dbUnhideRes (.solid 2)), cmW, [.dbUnhide (.solid 2)]) ∧
     ContourManager.makeVisible cmW (.solid 2) true =
        (.ok (), cmW, [.dbMakeVisible (.solid 2) true]) ∧
     ((cmW.env.dbAddItemRes 3).isSpaceInstance = false →
        ContourManager.addItem cmW 3 = (.ok (cmW.env.dbAddItemRes 3), cmW, [.dbAddItem 3])) ∧
     ContourManager.replaceItem cmW (.solid 2) 3 =
        (.ok (cmW.env.dbReplaceRes (.solid 2) 3), cmW, [.dbReplaceItem (.solid 2) 3]) ∧
     ContourManager.removeItem cmW (.solid 2) = (.ok (), cmW, [.dbRemoveItem (.solid 2)])) :=
  ⟨rfl, non_curve_frame cmW (.solid 2) 3 true rfl⟩

/-- Test selecting the region-rebuild calls of a trace. -/
def Ev.isUpdatePlacement : Ev → Bool
  | .updatePlacement _ => true
  | _ => false

namespace ContourManager

/-- Behavior of `addCurve` on an idle coordinator: register the record and
trigger exactly one region rebuild for the curve's placement. -/
theorem addCurve_idle (cm : CM) (c : SimpleName) (h : cm.state = CMState.none) :
    addCurve cm c =
      (.ok (), { cm with curves := dbSet cm.curves c (cm.env.curveInfo c) },
       [.curvesAdd c, .updatePlacement (cm.env.curveInfo c).placement]) := by
  rw [addCurve, h]
  simp only [dbLookup_dbSet_self]

/-- Expected trace of the `unhideAll` loop: one `curves.add` call and one
region rebuild per unhidden `SpaceInstance`, in order. -/
def unhideTrace (env : Env) : List Item → List Ev
  | [] => []
  | .spaceInstance n :: rest =>
    .curvesAdd n :: .updatePlacement (env.curveInfo n).placement :: unhideTrace env rest
  | .solid _ :: rest => unhideTrace env rest
  | .planeInstance _ :: rest => unhideTrace env rest

theorem unhideTrace_no_commit (env : Env) (items : List Item) (t : Transaction) :
    Ev.curvesCommit t ∉ unhideTrace env items := by
  induction items with
  | nil => simp [unhideTrace]
  | cons i rest ih =>
    cases i with
    | spaceInstance n => simp [unhideTrace, ih]
    | solid n => simpa [unhideTrace] using ih
    | planeInstance n => simpa [unhideTrace] using ih

theorem unhideTrace_count (env : Env) (items : List Item) :
    (unhideTrace env items).countP Ev.isUpdatePlacement =
      items.countP Item.isSpaceInstance := by
  induction items with
  | nil => rfl
  | cons i rest ih =>
    cases i with
    | spaceInstance n =>
      simp [unhideTrace, List.countP_cons, ih, Ev.isUpdatePlacement, Item.isSpaceInstance]
    | solid n =>
      simp [unhideTrace, List.countP_cons, ih, Item.isSpaceInstance]
    | planeInstance n =>
      simp [unhideTrace, List.countP_cons, ih, Item.isSpaceInstance]

theorem goUnhide_idle (items : List Item) :
    ∀ cm : CM, cm.state = CMState.none →
      ∃ db' : PCDB, goUnhide cm items =
        (.ok (), { cm with curves := db' }, unhideTrace cm.env items) := by
  induction items with
  | nil =>
    intro cm h
    exact ⟨cm.curves, rfl⟩
  | cons i rest ih =>
    intro cm h
    cases i with
    | spaceInstance n =>
      rw [goUnhide, addCurve_idle cm n h]
      obtain ⟨db', hdb⟩ :=
        ih { cm with curves := dbSet cm.curves n (cm.env.curveInfo n) } h
      refine ⟨db', ?_⟩
      simp only [hdb, unhideTrace]
      rfl
    | solid n =>
      rw [goUnhide]
      · exact ih cm h
      · simp
    | planeInstance n =>
      rw [goUnhide]
      · exact ih cm h
      · simp

end ContourManager

/-- C10: `unhideAll` does not open a transaction — from an idle coordinator
it stays idle, returns the unhidden items, never calls `curves.commit`, and
triggers one region rebuild per unhidden `SpaceInstance` (rather than one
batched commit with at most one rebuild per plane). -/
theorem unhideAll_bypasses_transaction (cm : CM) (h : cm.state = CMState.none) :
    (ContourManager.unhideAll cm).1 = .ok cm.env.dbUnhideAllRes ∧
    (ContourManager.unhideAll cm).2.1.state = CMState.none ∧
    (∀ t : Transaction, Ev.curvesCommit t ∉ (ContourManager.unhideAll cm).2.2) ∧
    (ContourManager.unhideAll cm).2.2.countP Ev.isUpdatePlacement =
      cm.env.dbUnhideAllRes.countP Item.isSpaceInstance := by
  obtain ⟨db', hdb⟩ := ContourManager.goUnhide_idle cm.env.dbUnhideAllRes cm h
  have hall : ContourManager.unhideAll cm =
      (.ok cm.env.dbUnhideAllRes, { cm with curves := db' },
       .dbUnhideAll :: ContourManager.unhideTrace cm.env cm.env.dbUnhideAllRes) := by
    rw [ContourManager.unhideAll, hdb]
  rw [hall]
  refine ⟨rfl, h, ?_, ?_⟩
  · intro t
    simp [ContourManager.unhideTrace_no_commit]
  · simp [List.countP_cons, Ev.isUpdatePlacement, ContourManager.unhideTrace_count]

/-- Environment with three unhidden items, two of them curves, for the C10
witness. -/
def envW3 : Env :=
  { envW with dbUnhideAllRes := [.spaceInstance 1, .solid 2, .spaceInstance 3] }

/-- Witness for C10 at a concrete coordinator. -/
theorem unhideAll_bypasses_transaction_witness :
    ({ state := .none, curves := [], env := envW3 } : CM).state = CMState.none ∧
    ((ContourManager.unhideAll { state := .none, curves := [], env := envW3 }).1 =
        .ok envW3.dbUnhideAllRes ∧
     (ContourManager.unhideAll { state := .none, curves := [], env := envW3 }).2.1.state =
        CMState.none ∧
     (∀ t : Transaction,
        Ev.curvesCommit t ∉
          (ContourManager.unhideAll { state := .none, curves := [], env := envW3 }).2.2) ∧
     (ContourManager.unhideAll { state := .none, curves := [], env := envW3 }).2.2.countP
        Ev.isUpdatePlacement =
       envW3.dbUnhideAllRes.countP Item.isSpaceInstance) :=
  ⟨rfl, unhideAll_bypasses_transaction { state := .none, curves := [], env := envW3 } rfl⟩

/-- Elements newly accumulated by the cascade's dirty fold are outside the
deletion set the fold checks against. -/
theorem foldl_dirty_mem (del : List SimpleName) (os : List SimpleName) :
    ∀ (d : List SimpleName) (x : SimpleName),
      x ∈ os.foldl (fun d o => if o ∈ del then d else setAdd d o) d →
        x ∈ d ∨ x ∉ del := by
  induction os with
  | nil => intro d x hx; exact .inl hx
  | cons o rest ih =>
    intro d x hx
    simp only [List.foldl_cons] at hx
    by_cases ho : o ∈ del
    · rw [if_pos ho] at hx
      exact ih d x hx
    · rw [if_neg ho] at hx
      rcases ih _ x hx with hd | hnd
      · rcases mem_setAdd.mp hd with h1 | rfl
        · exact .inl h1
        · exact .inr ho
      · exact .inr hnd

/-- C7 counterexample: the three transaction sets are not pairwise disjoint.
Inside a transaction over a table holding the jointless curve 1, the body
`removeCurve 1; addCurve 1` leaves curve 1 in both `added` and `deleted`. -/
theorem set_disjointness_counterexample :
    (ContourManager.runBody (.removeCurve 1 (.addCurve 1 .done))
      { state := .transaction ⟨[], [], []⟩,
        curves := [(1, { touched := [], joints := ⟨none, none⟩, planarCurve := 1,
                         placement := 0 })],
        env := envW }).2.1.state = CMState.transaction ⟨[], [1], [1]⟩ ∧
    1 ∈ (Transaction.mk [] [1] [1]).added ∧ 1 ∈ (Transaction.mk [] [1] [1]).deleted := by
  refine ⟨rfl, by decide, by decide⟩

/-- C7 amended: the sets are not maintained pairwise disjoint (removing and
then re-adding a curve puts it in both `added` and `deleted`, and deleting a
previously dirtied curve leaves it in both `deleted` and `dirty`); the
guarantee the cascade does give is one-directional: a cascade hop never
dirties a curve that is already in `deleted` at that moment — every curve
newly added to `dirty` by a `removeCurve` call is outside the resulting
`deleted` set. -/
theorem set_disjointness_amended (db : PCDB) (c : SimpleName) (t t' : Transaction)
    (h : cascade db c t = .ok t') :
    ∀ x : SimpleName, x ∈ t'.dirty → x ∉ t.dirty → x ∉ t'.deleted := by
  intro x hx hnx
  rw [cascade] at h
  cases hl : dbLookup db c with
  | none => rw [hl] at h; simp at h
  | some info =>
    rw [hl] at h
    simp only [Except.ok.injEq] at h
    subst h
    rcases foldl_dirty_mem (setAdd t.deleted c) _ _ _ hx with hd | hnd
    · exact absurd hd hnx
    · exact hnd

/-- Witness for the C7 amended theorem: removing curve 1 (jointed to curve
2) dirties 2, and 2 is indeed outside the resulting deleted set. -/
theorem set_disjointness_amended_witness :
    cascade [(1, { touched := [], joints := ⟨some ⟨⟨1, 0, 0, 1⟩, ⟨2, 0, 0, 1⟩⟩, none⟩,
                   planarCurve := 1, placement := 0 })] 1 ⟨[], [], []⟩ =
      .ok ⟨[2], [], [1]⟩ ∧
    2 ∉ (Transaction.mk [2] [] [1]).deleted :=
  ⟨rfl,
   set_disjointness_amended
     [(1, { touched := [], joints := ⟨some ⟨⟨1, 0, 0, 1⟩, ⟨2, 0, 0, 1⟩⟩, none⟩,
            planarCurve := 1, placement := 0 })] 1 ⟨[], [], []⟩ ⟨[2], [], [1]⟩
     rfl 2 (by decide) (by decide)⟩

/-- Curve table for the C8 counterexample: curve 1 records a joint to curve
2, but curve 2 is unknown to the index. -/
def c8db : PCDB :=
  [(1, { touched := [], joints := ⟨some ⟨⟨1, 0, 0, 1⟩, ⟨2, 0, 0, 1⟩⟩, none⟩,
         planarCurve := 1, placement := 0 })]

/-- C8 counterexample: a transaction that removes curve 1 puts the unknown
id 2 into `dirty`; the commit-time affected-plane computation looks id 2 up,
finds nothing, and the transaction nevertheless completes successfully —
the unknown id is silently skipped instead of a `NotFound` abort. -/
theorem notfound_aborts_counterexample :
    dbLookup c8db 2 = none ∧
    ContourManager.transaction { state := .none, curves := c8db, env := envW }
        (.removeCurve 1 .done) =
      (.ok (), cmW, [.curvesCommit ⟨[2], [], [1]⟩, .updatePlacement 0]) :=
  ⟨rfl, rfl⟩

/-- C8 amended: an unknown curve id reached through the coordinator's direct
lookups does abort — an in-transaction `removeCurve` of an unknown id fails
with `NotFound`, aborting the transaction with cleanup to idle and no commit,
and an idle-state `removeCurve` of an unknown id fails — but the lookups of
the commit-time affected-plane computation silently skip unknown ids rather
than aborting. -/
theorem notfound_aborts_amended (db : PCDB) (acc : List PlacementId) (c : SimpleName)
    (rest : List SimpleName) (cm : CM) (body : Body)
    (h1 : dbLookup db c = none) (h2 : cm.state = CMState.none)
    (h3 : dbLookup cm.curves c = none) :
    ContourManager.placementsAffectedByTransaction db (c :: rest) acc =
      ContourManager.placementsAffectedByTransaction db rest acc ∧
    ContourManager.transaction cm (.removeCurve c body) = (.error (.notFound c), cm, []) ∧
    ContourManager.removeCurve cm c =
      (.error (.notFound c), { cm with curves := dbRemove cm.curves c },
       [.curvesRemove c]) := by
  refine ⟨?_, ?_, ?_⟩
  · rw [ContourManager.placementsAffectedByTransaction,
      ContourManager.placementsAffectedByTransaction]
    simp only [List.foldl_cons, h1]
  · obtain ⟨st, curves, env⟩ := cm
    simp only at h2 h3
    subst h2
    rw [ContourManager.transaction]
    simp only [ContourManager.runBody, ContourManager.removeCurve, cascade, h3,
      ContourManager.finishTransaction, List.append_nil]
  · rw [ContourManager.removeCurve, h2]
    simp only [h3]

/-- Witness for the C8 amended theorem at concrete inputs. -/
theorem notfound_aborts_amended_witness :
    dbLookup c8db 2 = none ∧ cmW.state = CMState.none ∧ dbLookup cmW.curves 2 = none ∧
    (ContourManager.placementsAffectedByTransaction c8db [2] [] =
      ContourManager.placementsAffectedByTransaction c8db [] [] ∧
    ContourManager.transaction cmW (.removeCurve 2 .done) = (.error (.notFound 2), cmW, []) ∧
    ContourManager.removeCurve cmW 2 =
      (.error (.notFound 2), { cmW with curves := dbRemove cmW.curves 2 },
       [.curvesRemove 2])) :=
  ⟨rfl, rfl, rfl, notfound_aborts_amended c8db [] 2 [] cmW .done rfl rfl rfl⟩
